import Mathlib

/-!
Verification of the branch-state synchronization engine of the
"Total Recall" VS Code extension.

The TypeScript sources are shallowly embedded as pure Lean functions:

* `pathNormalize` models Node's `path.normalize` for POSIX paths
  (the platform instantiation used by the repository's own test suite,
  with `path.sep = "/"`).
* `isFileInRepo`, `getOpenFilesForRepo`, `getTabsForRepo`,
  `getActiveFileForRepo` model `src/gitUtils/fileUtils.ts`
  (the revision returning an ordered, de-duplicated list).
* `BranchChecker.checkBranchChange` models the revision of
  `src/gitUtils/branchChecker.ts` that performs legacy-format migration
  (`migrateBranchData`) and opens the previously active file first.
* `BranchCheckerV2.processBranchChange` models the revision of
  `branchChecker.ts` that carries the per-repository re-entrancy guard
  and opens the saved files in stored order; the guard itself
  (`processingRepos` / `pendingRepos` with a do/while loop and
  try/finally) is modelled by `BranchCheckerV2.checkBranchChange` as a
  state machine driven by a script of per-run notification arrivals and
  run outcomes.
* `isRecentlyCreatedOrUpdatedBranch` models
  `src/gitUtils/branchUtils.ts`: the result of the reflog query is an
  `ExecResult`; the `@\x7b<digits>\x7d` regex match is modelled by
  `findReflogTimestamp`.

Effectful VS Code API calls (closing tabs, `showTextDocument`, the
workspace-state update) are reified as data in `BranchChangeResult`:
the list of closed tab paths, the ordered list of
`(path, preserveFocus)` open calls, whether the persisted map was
written, and the resulting map and in-memory branch pointer.
-/

/-- JavaScript `s.startsWith(p)` on strings, as a code-unit prefix test. -/
def strStartsWith (s p : String) : Bool :=
  p.data.isPrefixOf s.data

/-- JavaScript `s.endsWith(p)` on strings, as a code-unit suffix test. -/
def strEndsWith (s p : String) : Bool :=
  p.data.isSuffixOf s.data

/-- JavaScript `s.split('/')` on the character list of a path. -/
def splitPath : List Char → List (List Char)
  | [] => [[]]
  | c :: rest =>
    if c = '/' then [] :: splitPath rest
    else
      match splitPath rest with
      | [] => [[c]]
      | s :: ss => (c :: s) :: ss

/-- Core of Node's `path.posix.normalize` (`normalizeString`): process the
segments left to right against a stack (`acc`, kept reversed).  Empty
segments and `.` are dropped; `..` pops a previous segment, and is kept
only for relative paths (`allowAboveRoot`) when there is nothing to pop. -/
def normalizeSegments (allowAboveRoot : Bool) : List (List Char) → List (List Char) → List (List Char)
  | [], acc => acc.reverse
  | seg :: rest, acc =>
    if seg = [] ∨ seg = ['.'] then normalizeSegments allowAboveRoot rest acc
    else if seg = ['.', '.'] then
      (match acc with
      | [] => normalizeSegments allowAboveRoot rest (if allowAboveRoot then [['.', '.']] else [])
      | top :: tl =>
        if top = ['.', '.'] then
          normalizeSegments allowAboveRoot rest (if allowAboveRoot then ['.', '.'] :: acc else acc)
        else normalizeSegments allowAboveRoot rest tl)
    else normalizeSegments allowAboveRoot rest (seg :: acc)

/-- Joining normalized segments with `'/'` (Node builds the same string
incrementally while scanning). -/
def joinSegments : List (List Char) → List Char
  | [] => []
  | [s] => s
  | s :: rest => s ++ '/' :: joinSegments rest

/-- Node `path.normalize` for POSIX paths: empty input yields `"."`;
otherwise the segments are normalized, a leading separator is restored
for absolute paths, and a single trailing separator is preserved. -/
def pathNormalize (p : String) : String :=
  if p = "" then "."
  else
    let body := joinSegments (normalizeSegments (!(strStartsWith p "/")) (splitPath p.data) [])
    if body = [] then
      if strStartsWith p "/" then "/" else if strEndsWith p "/" then "./" else "."
    else
      ⟨(if strStartsWith p "/" then '/' :: body else body) ++
        (if strEndsWith p "/" then ['/'] else [])⟩

/-- `normalizeRepoKey` from `branchChecker.ts`: `path.normalize(repoRoot)`. -/
def normalizeRepoKey (repoRoot : String) : String :=
  pathNormalize repoRoot

/-- `isFileInRepo` from `fileUtils.ts`: normalize both paths, force a
trailing separator on the repo root, then prefix test (or exact match). -/
def isFileInRepo (filePath repoRoot : String) : Bool :=
  let normalizedFilePath := pathNormalize filePath
  let normalizedRepoRoot := pathNormalize repoRoot
  let repoRootWithSep :=
    if strEndsWith normalizedRepoRoot "/" then normalizedRepoRoot
    else normalizedRepoRoot ++ "/"
  strStartsWith normalizedFilePath repoRootWithSep || normalizedFilePath == normalizedRepoRoot

/-- A VS Code tab's input: a text document backed by a file path, or any
other kind of tab (`tab.input instanceof TabInputText` fails). -/
inductive TabInput where
  | text (fsPath : String)
  | other
deriving DecidableEq

/-- The path of a text-document tab, if any. -/
def textPath : TabInput → Option String
  | TabInput.text fsPath => some fsPath
  | TabInput.other => none

/-- Inner loop of `getOpenFilesForRepo` over the tabs of one group,
carrying the `seen` set (as a list queried by membership) and the
accumulated ordered output. -/
def openFilesInGroup (repoRoot : String) : List TabInput → List String × List String → List String × List String
  | [], st => st
  | tab :: rest, (seen, acc) =>
    match tab with
    | TabInput.text fsPath =>
      if isFileInRepo fsPath repoRoot && !(seen.contains fsPath) then
        openFilesInGroup repoRoot rest (fsPath :: seen, acc ++ [fsPath])
      else openFilesInGroup repoRoot rest (seen, acc)
    | TabInput.other => openFilesInGroup repoRoot rest (seen, acc)

/-- Outer loop of `getOpenFilesForRepo` over all tab groups in display order. -/
def openFilesInGroups (repoRoot : String) : List (List TabInput) → List String × List String → List String × List String
  | [], st => st
  | g :: gs, st => openFilesInGroups repoRoot gs (openFilesInGroup repoRoot g st)

/-- `getOpenFilesForRepo` from `fileUtils.ts` (ordered revision): all open
text files under `repoRoot`, in tab-bar order, first occurrence wins. -/
def getOpenFilesForRepo (repoRoot : String) (groups : List (List TabInput)) : List String :=
  (openFilesInGroups repoRoot groups ([], [])).2

/-- Inner loop of `getTabsForRepo` over one group (no de-duplication). -/
def tabsInGroup (repoRoot : String) : List TabInput → List String → List String
  | [], acc => acc
  | tab :: rest, acc =>
    match tab with
    | TabInput.text fsPath =>
      tabsInGroup repoRoot rest (if isFileInRepo fsPath repoRoot then acc ++ [fsPath] else acc)
    | TabInput.other => tabsInGroup repoRoot rest acc

/-- Outer loop of `getTabsForRepo` over all tab groups. -/
def tabsInGroups (repoRoot : String) : List (List TabInput) → List String → List String
  | [], acc => acc
  | g :: gs, acc => tabsInGroups repoRoot gs (tabsInGroup repoRoot g acc)

/-- `getTabsForRepo` from `fileUtils.ts`: the text-document tabs under
`repoRoot`, identified here by their paths. -/
def getTabsForRepo (repoRoot : String) (groups : List (List TabInput)) : List String :=
  tabsInGroups repoRoot groups []

/-- Fallback branch of `getActiveFileForRepo`: the active tab of the
active tab group, when it is a text tab under the repo. -/
def activeTabFallback (repoRoot : String) (activeTab : Option TabInput) : Option String :=
  match activeTab with
  | some (TabInput.text fsPath) => if isFileInRepo fsPath repoRoot then some fsPath else none
  | _ => none

/-- `getActiveFileForRepo` from `fileUtils.ts`: prefer the active text
editor's document when it is under the repo, else fall back to the
active tab of the active tab group. -/
def getActiveFileForRepo (repoRoot : String) (activeEditor : Option String) (activeTab : Option TabInput) : Option String :=
  match activeEditor with
  | some fsPath =>
    if isFileInRepo fsPath repoRoot then some fsPath
    else activeTabFallback repoRoot activeTab
  | none => activeTabFallback repoRoot activeTab

/-- `BranchTabState` from `branchChecker.ts`. -/
structure BranchTabState where
  files : List String
  activeFile : Option String
deriving DecidableEq

/-- A value stored under `(repoKey, branch)` in workspace state: either a
legacy bare list of paths, or the current `BranchTabState` shape. -/
inductive StoredBranchData where
  | legacy (files : List String)
  | current (state : BranchTabState)
deriving DecidableEq

/-- `migrateBranchData` from `branchChecker.ts`: absent data becomes the
empty state, a legacy bare list gains `activeFile: null`, current data
passes through. -/
def migrateBranchData (data : Option StoredBranchData) : BranchTabState :=
  match data with
  | none => { files := [], activeFile := none }
  | some (StoredBranchData.legacy files) => { files := files, activeFile := none }
  | some (StoredBranchData.current state) => state

/-- JavaScript `value || fallback` for an optional string: `undefined` and
the empty string are falsy. -/
def jsOr (value : Option String) (fallback : String) : String :=
  match value with
  | some s => if s = "" then fallback else s
  | none => fallback

/-- The observable outcome of one transition-processing run: whether the
persisted map was written (and its new value), which tabs were closed,
the ordered `showTextDocument` calls as `(path, preserveFocus)` pairs,
and the in-memory current-branch pointer afterwards. -/
structure BranchChangeResult where
  storeWritten : Bool
  store : String → Option (String → Option StoredBranchData)
  closedTabs : List String
  openCalls : List (String × Bool)
  currentBranchAfter : Option String

namespace BranchChecker

/-- `checkBranchChange` from `src/gitUtils/branchChecker.ts` (the revision
with `migrateBranchData`), as a pure function of a snapshot of its
environment: the repository root and HEAD name, the tracked pointer for
this repository, the live tab surface, the active editor/tab, the
persisted map, and the recency classifier's verdict for the new branch. -/
def checkBranchChange (rootPath : String) (headName : Option String) (pointer : Option String)
    (groups : List (List TabInput)) (activeEditor : Option String) (activeTab : Option TabInput)
    (store : String → Option (String → Option StoredBranchData)) (isRecent : Bool) :
    BranchChangeResult :=
  let repoKey := normalizeRepoKey rootPath
  let newBranch := jsOr headName "HEAD"
  let currentBranch := jsOr pointer ""
  if newBranch = currentBranch then
    { storeWritten := false, store := store, closedTabs := [], openCalls := [],
      currentBranchAfter := pointer }
  else
    let openFiles := getOpenFilesForRepo rootPath groups
    let inner := (store repoKey).getD (fun _ => none)
    let inner' :=
      if currentBranch = "" then inner
      else fun b =>
        if b = currentBranch then
          some (StoredBranchData.current
            { files := openFiles,
              activeFile := getActiveFileForRepo rootPath activeEditor activeTab })
        else inner b
    let store' := fun k => if k = repoKey then some inner' else store k
    let isOldBranch := !isRecent
    if isOldBranch then
      let tabsToClose := getTabsForRepo rootPath groups
      let branchData := migrateBranchData (inner' newBranch)
      let activeFile := branchData.activeFile
      let phase1 :=
        match activeFile with
        | some a => if a = "" then [] else [(a, false)]
        | none => []
      let phase2 :=
        (branchData.files.filter (fun f => !(some f == activeFile))).map (fun f => (f, true))
      { storeWritten := true, store := store', closedTabs := tabsToClose,
        openCalls := phase1 ++ phase2, currentBranchAfter := some newBranch }
    else
      { storeWritten := true, store := store', closedTabs := [], openCalls := [],
        currentBranchAfter := some newBranch }

end BranchChecker

namespace BranchCheckerV2

/-- `processBranchChange` from the guarded revision of `branchChecker.ts`:
like `BranchChecker.checkBranchChange` but the stored value is read
without migration (`branchData?.files ?? []` — a legacy bare array has
no `files` field at runtime, so it reads as empty), and the saved files
are opened in stored order, the previously active file receiving focus
in place. -/
def processBranchChange (rootPath : String) (headName : Option String) (pointer : Option String)
    (groups : List (List TabInput)) (activeEditor : Option String) (activeTab : Option TabInput)
    (store : String → Option (String → Option StoredBranchData)) (isRecent : Bool) :
    BranchChangeResult :=
  let repoKey := normalizeRepoKey rootPath
  let newBranch := jsOr headName "HEAD"
  let currentBranch := jsOr pointer ""
  if newBranch = currentBranch then
    { storeWritten := false, store := store, closedTabs := [], openCalls := [],
      currentBranchAfter := pointer }
  else
    let openFiles := getOpenFilesForRepo rootPath groups
    let inner := (store repoKey).getD (fun _ => none)
    let inner' :=
      if currentBranch = "" then inner
      else fun b =>
        if b = currentBranch then
          some (StoredBranchData.current
            { files := openFiles,
              activeFile := getActiveFileForRepo rootPath activeEditor activeTab })
        else inner b
    let store' := fun k => if k = repoKey then some inner' else store k
    let isOldBranch := !isRecent
    if isOldBranch then
      let tabsToClose := getTabsForRepo rootPath groups
      let branchData := inner' newBranch
      let filesToOpen :=
        match branchData with
        | some (StoredBranchData.current st) => st.files
        | _ => []
      let activeFile :=
        match branchData with
        | some (StoredBranchData.current st) => st.activeFile
        | _ => none
      let focusFile :=
        match activeFile with
        | some a => some a
        | none => filesToOpen.head?
      { storeWritten := true, store := store', closedTabs := tabsToClose,
        openCalls := filesToOpen.map (fun f => (f, !(some f == focusFile))),
        currentBranchAfter := some newBranch }
    else
      { storeWritten := true, store := store', closedTabs := [], openCalls := [],
        currentBranchAfter := some newBranch }

/-- Outcome of one `processBranchChange` run inside the guard's do/while
loop: it either resolves or rejects (throws). -/
inductive RunOutcome where
  | ok
  | throws
deriving DecidableEq

/-- The per-repository guard entry state: membership of the repo key in
`processingRepos` and `pendingRepos`. -/
structure GuardState where
  processing : Bool
  pending : Bool
deriving DecidableEq

/-- Result of one `checkBranchChange` invocation for a repository:
final membership in the two guard sets, how many times
`processBranchChange` ran, and whether the invocation rejected. -/
structure GuardResult where
  processing : Bool
  pending : Bool
  runs : Nat
  threw : Bool
deriving DecidableEq

/-- The do/while loop of the guarded `checkBranchChange`.  Each script
entry describes one run of `processBranchChange`: how many change
notifications arrived for this repository while that run was in flight
(each such notification hits the `processingRepos.has` branch and adds
the key to `pendingRepos` — set semantics, so only arrival versus no
arrival matters), and whether the run resolved or rejected.  The loop
deletes the key from `pendingRepos` at the top of each iteration and
re-runs while the key is pending; an exhausted script stands for a final
run with no arrivals.  The `finally` clause removes the key from
`processingRepos` on both exits. -/
def checkBranchChangeLoop : List (Nat × RunOutcome) → Nat → GuardResult
  | [], runsSoFar =>
    { processing := false, pending := false, runs := runsSoFar + 1, threw := false }
  | (arrivals, outcome) :: rest, runsSoFar =>
    match outcome with
    | RunOutcome.throws =>
      { processing := false, pending := decide (0 < arrivals), runs := runsSoFar + 1,
        threw := true }
    | RunOutcome.ok =>
      if 0 < arrivals then checkBranchChangeLoop rest (runsSoFar + 1)
      else { processing := false, pending := false, runs := runsSoFar + 1, threw := false }

/-- The guarded `checkBranchChange` entry: if the repository is already
being processed, record the pending flag and return without running;
otherwise acquire the guard and run the do/while loop. -/
def checkBranchChange (st : GuardState) (script : List (Nat × RunOutcome)) : GuardResult :=
  if st.processing then
    { processing := true, pending := true, runs := 0, threw := false }
  else checkBranchChangeLoop script 0

end BranchCheckerV2

/-- The outcome of `exec` for the reflog query in `branchUtils.ts`:
either an error or the captured stdout. -/
inductive ExecResult where
  | error (message : String)
  | ok (stdout : String)

/-- `parseInt(digits, 10)` on a non-empty digit string. -/
def natOfDigits (ds : List Char) : Nat :=
  ds.foldl (fun acc c => 10 * acc + (c.toNat - 48)) 0

/-- The opening-brace character, spelled via its code point. -/
def braceOpen : Char := Char.ofNat 123

/-- The closing-brace character, spelled via its code point. -/
def braceClose : Char := Char.ofNat 125

/-- The regex match of `branchUtils.ts` against the reflog output: the
leftmost occurrence of `'@'`, an opening brace, one or more digits, and
a closing brace; yields the parsed digits, or `none` when the output
never matches. -/
def findReflogTimestamp : List Char → Option Nat
  | [] => none
  | c :: rest =>
    if c = '@' then
      match rest with
      | [] => none
      | c2 :: afterBrace =>
        if c2 = braceOpen then
          let digits := afterBrace.takeWhile Char.isDigit
          if digits ≠ [] ∧ (afterBrace.drop digits.length).head? = some braceClose then
            some (natOfDigits digits)
          else findReflogTimestamp rest
        else findReflogTimestamp rest
    else findReflogTimestamp rest

/-- `isRecentlyCreatedOrUpdatedBranch` from `branchUtils.ts` as a pure
function of the reflog query result and the current Unix timestamp:
on `exec` error it resolves `false`; when the output does not match the
reflog pattern it resolves `false`; otherwise it resolves whether the
branch's latest reflog timestamp is within 5 seconds of now. -/
def isRecentlyCreatedOrUpdatedBranch (result : ExecResult) (currentTimestamp : Int) : Bool :=
  match result with
  | ExecResult.error _ => false
  | ExecResult.ok stdout =>
    match findReflogTimestamp stdout.data with
    | none => false
    | some branchTimestamp => decide (currentTimestamp - (branchTimestamp : Int) ≤ 5)

/-- The two recognized values of the `totalRecall.restoreBehavior`
configuration option. -/
inductive RestoreBehavior where
  | preserveTabOrder
  | focusActiveTabFirst
deriving DecidableEq

/-- Modelled from the spec: the configurable tab-replay policy of the Tab
Replay Engine (§4.5) is not present in the sources under `src/` — only
its unit tests and the README describe it.  Under `preserveTabOrder`
(the default) every saved file is opened in listed order with focus
suppressed, then the focus file (`activeFile`, else the first file) is
re-opened once without focus suppression; under `focusActiveTabFirst`
the focus file is opened first with focus, then the remaining files in
original order with focus suppressed.  Each open call is the pair
`(path, preserveFocus)`. -/
def replayOpenCalls (behavior : RestoreBehavior) (files : List String)
    (activeFile : Option String) : List (String × Bool) :=
  let focusFile :=
    match activeFile with
    | some a => some a
    | none => files.head?
  match behavior with
  | RestoreBehavior.preserveTabOrder =>
    files.map (fun f => (f, true)) ++
      (match focusFile with
        | some f => [(f, false)]
        | none => [])
  | RestoreBehavior.focusActiveTabFirst =>
    (match focusFile with
      | some f => [(f, false)]
      | none => []) ++
      (files.filter (fun f => !(some f == focusFile))).map (fun f => (f, true))

/-- The repo root viewed as a directory name: its normalized character
list with a single trailing separator removed, if present.  Used to
state the membership boundary specification. -/
def rootDirData (s : String) : List Char :=
  if s.data.getLast? = some '/' then s.data.dropLast else s.data

/-- First-occurrence de-duplication: keep each element's first occurrence,
drop the later ones.  Used to state the open-files specification. -/
def dedupFirst : List String → List String
  | [] => []
  | p :: rest => p :: dedupFirst (rest.filter (fun q => !(q == p)))
termination_by l => l.length
decreasing_by
  simp only [List.length_cons]
  exact Nat.lt_succ_of_le (List.length_filter_le _ _)

/-- Claim C1 counterexample: at a concrete failing history query — an
`exec` error, and likewise a stdout that does not match the reflog
pattern — `isRecentlyCreatedOrUpdatedBranch` resolves `false`, not
`true` as the claim states. -/
theorem C1_counterexample :
    isRecentlyCreatedOrUpdatedBranch (ExecResult.error "fatal: reflog missing") 1700000000 = false ∧
    isRecentlyCreatedOrUpdatedBranch (ExecResult.ok "no reflog entry here") 1700000000 = false := by
  constructor
  · rfl
  · decide

/-- Claim C1 (amended): on any failure to obtain history data — the
underlying command errors, or its output does not match the expected
reflog pattern — `isRecentlyCreatedOrUpdatedBranch` resolves `false`,
i.e. the failure is treated as NOT recent, so replay is not suppressed
for that transition. -/
theorem C1_failure_treated_as_not_recent :
    (∀ (message : String) (now : Int),
        isRecentlyCreatedOrUpdatedBranch (ExecResult.error message) now = false) ∧
    (∀ (stdout : String) (now : Int), findReflogTimestamp stdout.data = none →
        isRecentlyCreatedOrUpdatedBranch (ExecResult.ok stdout) now = false) := by
  constructor
  · intro message now
    rfl
  · intro stdout now h
    simp only [isRecentlyCreatedOrUpdatedBranch, h]

/-- Claim C1 witness: the amended statement applied at a malformed
output. -/
theorem C1_failure_treated_as_not_recent_witness :
    isRecentlyCreatedOrUpdatedBranch (ExecResult.ok "Unexpected reflog output") 1700000000 = false :=
  C1_failure_treated_as_not_recent.2 "Unexpected reflog output" 1700000000 (by decide)

/-- Claim C2: any positive number of change notifications arriving while
the transition-processing run is in flight results in exactly one
additional full re-run (two runs in total), after which the repository
is idle: its key is in neither the processing set nor the pending set. -/
theorem C2_coalescing_single_rerun (arrivals : Nat) (h : 0 < arrivals) :
    BranchCheckerV2.checkBranchChange { processing := false, pending := false }
        [(arrivals, BranchCheckerV2.RunOutcome.ok)] =
      { processing := false, pending := false, runs := 2, threw := false } := by
  simp only [BranchCheckerV2.checkBranchChange, BranchCheckerV2.checkBranchChangeLoop,
    if_pos h, if_neg (Bool.false_ne_true ∘ id)]

/-- Claim C2 witness: two notifications during the in-flight run. -/
theorem C2_coalescing_single_rerun_witness :
    BranchCheckerV2.checkBranchChange { processing := false, pending := false }
        [(2, BranchCheckerV2.RunOutcome.ok)] =
      { processing := false, pending := false, runs := 2, threw := false } :=
  C2_coalescing_single_rerun 2 (by decide)

/-- Claim C3: under the default `preserveTabOrder` policy, replaying
`files = [a, b, c]` with `activeFile = b` issues open calls in exactly
the order `[a, b, c, b]` — each listed file with focus suppressed,
then the focus file once more without focus suppression. -/
theorem C3_preserve_tab_order_round_trip (a b c : String) :
    replayOpenCalls RestoreBehavior.preserveTabOrder [a, b, c] (some b) =
      [(a, true), (b, true), (c, true), (b, false)] := rfl

/-- Claim C4: a stored legacy bare sequence `[x, y]` is read as
`\x7b files := [x, y], activeFile := none \x7d`, and the replay engine
then opens `x` and `y` (in the background phase) rather than treating
the entry as empty. -/
theorem C4_legacy_migration_replay (x y : String) :
    migrateBranchData (some (StoredBranchData.legacy [x, y])) =
      { files := [x, y], activeFile := none } ∧
    (BranchChecker.checkBranchChange "/r" (some "feature") (some "main") [] none none
        (fun k => if k = "/r" then
          some (fun b => if b = "feature" then some (StoredBranchData.legacy [x, y]) else none)
        else none) false).openCalls = [(x, true), (y, true)] := by
  constructor
  · rfl
  · rfl

/-- Claim C5: when the classifier reports the new branch as recent, the
transition closes no tabs and opens no files, yet the in-memory pointer
still advances to the new branch name, and the snapshot of the previous
branch was still written to the store. -/
theorem C5_recency_gate_frame (rootPath : String) (headName pointer : Option String)
    (groups : List (List TabInput)) (activeEditor : Option String) (activeTab : Option TabInput)
    (store : String → Option (String → Option StoredBranchData))
    (hne : jsOr headName "HEAD" ≠ jsOr pointer "") (hprev : jsOr pointer "" ≠ "") :
    (BranchCheckerV2.processBranchChange rootPath headName pointer groups activeEditor activeTab
        store true).closedTabs = [] ∧
    (BranchCheckerV2.processBranchChange rootPath headName pointer groups activeEditor activeTab
        store true).openCalls = [] ∧
    (BranchCheckerV2.processBranchChange rootPath headName pointer groups activeEditor activeTab
        store true).currentBranchAfter = some (jsOr headName "HEAD") ∧
    (BranchCheckerV2.processBranchChange rootPath headName pointer groups activeEditor activeTab
        store true).storeWritten = true ∧
    ((BranchCheckerV2.processBranchChange rootPath headName pointer groups activeEditor activeTab
        store true).store (normalizeRepoKey rootPath)).map
        (fun inner => inner (jsOr pointer "")) =
      some (some (StoredBranchData.current
        { files := getOpenFilesForRepo rootPath groups,
          activeFile := getActiveFileForRepo rootPath activeEditor activeTab })) := by
  simp [BranchCheckerV2.processBranchChange, if_neg hne, if_neg hprev]

/-- Claim C5 witness: a concrete recent transition `main → feature`. -/
theorem C5_recency_gate_frame_witness :
    (BranchCheckerV2.processBranchChange "/r" (some "feature") (some "main")
        [[TabInput.text "/r/a"]] (some "/r/a") none (fun _ => none) true).closedTabs = [] ∧
    (BranchCheckerV2.processBranchChange "/r" (some "feature") (some "main")
        [[TabInput.text "/r/a"]] (some "/r/a") none (fun _ => none) true).openCalls = [] ∧
    (BranchCheckerV2.processBranchChange "/r" (some "feature") (some "main")
        [[TabInput.text "/r/a"]] (some "/r/a") none (fun _ => none) true).currentBranchAfter =
      some (jsOr (some "feature") "HEAD") ∧
    (BranchCheckerV2.processBranchChange "/r" (some "feature") (some "main")
        [[TabInput.text "/r/a"]] (some "/r/a") none (fun _ => none) true).storeWritten = true ∧
    ((BranchCheckerV2.processBranchChange "/r" (some "feature") (some "main")
        [[TabInput.text "/r/a"]] (some "/r/a") none (fun _ => none) true).store
        (normalizeRepoKey "/r")).map (fun inner => inner (jsOr (some "main") "")) =
      some (some (StoredBranchData.current
        { files := getOpenFilesForRepo "/r" [[TabInput.text "/r/a"]],
          activeFile := getActiveFileForRepo "/r" (some "/r/a") none })) :=
  C5_recency_gate_frame "/r" (some "feature") (some "main") [[TabInput.text "/r/a"]]
    (some "/r/a") none (fun _ => none) (by decide) (by decide)

/-- Claim C6: when the live branch name equals the tracked pointer, the
processing run is a no-op — no store write, no tabs closed or opened,
pointer unchanged. -/
theorem C6_noop_transition (rootPath : String) (headName pointer : Option String)
    (groups : List (List TabInput)) (activeEditor : Option String) (activeTab : Option TabInput)
    (store : String → Option (String → Option StoredBranchData)) (isRecent : Bool)
    (h : jsOr headName "HEAD" = jsOr pointer "") :
    BranchCheckerV2.processBranchChange rootPath headName pointer groups activeEditor activeTab
        store isRecent =
      { storeWritten := false, store := store, closedTabs := [], openCalls := [],
        currentBranchAfter := pointer } := by
  simp only [BranchCheckerV2.processBranchChange, if_pos h]

/-- Claim C6 witness: a redundant notification while on `main`. -/
theorem C6_noop_transition_witness :
    BranchCheckerV2.processBranchChange "/r" (some "main") (some "main") [] none none
        (fun _ => none) false =
      { storeWritten := false, store := fun _ => none, closedTabs := [], openCalls := [],
        currentBranchAfter := some "main" } :=
  C6_noop_transition "/r" (some "main") (some "main") [] none none (fun _ => none) false
    (by decide)

/-- Claim C9 counterexample: one notification arriving while a run that
then throws is in flight leaves the repository's key in the pending set
after the guarded `checkBranchChange` settles — `pendingRepos.delete`
runs only at the top of the do-loop, and the `finally` clause clears
only `processingRepos`.  So the key is not absent from both sets, as
the claim states. -/
theorem C9_counterexample :
    BranchCheckerV2.checkBranchChange { processing := false, pending := false }
        [(1, BranchCheckerV2.RunOutcome.throws)] =
      { processing := false, pending := true, runs := 1, threw := true } := by
  decide

/-- Claim C9 (amended): the in-flight processing guard is always released
when the guarded `checkBranchChange` settles, even when the inner
routine rejects: the repository's key is absent from the processing
set, so a later notification for the repository is processed (the
routine runs) rather than being dropped — whatever stale pending flag
remains; and after a throwing run with no concurrent notification the
key is also absent from the pending set. -/
theorem C9_guard_always_released :
    (∀ (script : List (Nat × BranchCheckerV2.RunOutcome)) (pending : Bool),
        (BranchCheckerV2.checkBranchChange { processing := false, pending := pending }
            script).processing = false) ∧
    BranchCheckerV2.checkBranchChange { processing := false, pending := false }
        [(0, BranchCheckerV2.RunOutcome.throws)] =
      { processing := false, pending := false, runs := 1, threw := true } ∧
    (∀ pending : Bool,
        (BranchCheckerV2.checkBranchChange { processing := false, pending := pending }
            [(0, BranchCheckerV2.RunOutcome.ok)]).runs = 1) := by
  refine ⟨?_, by decide, fun pending => rfl⟩
  intro script pending
  have loopReleases : ∀ (s : List (Nat × BranchCheckerV2.RunOutcome)) (n : Nat),
      (BranchCheckerV2.checkBranchChangeLoop s n).processing = false := by
    intro s
    induction s with
    | nil => intro n; rfl
    | cons head tail ih =>
      intro n
      obtain ⟨arrivals, outcome⟩ := head
      cases outcome with
      | throws => rfl
      | ok =>
        by_cases h : 0 < arrivals
        · simp only [BranchCheckerV2.checkBranchChangeLoop, if_pos h]
          exact ih (n + 1)
        · simp only [BranchCheckerV2.checkBranchChangeLoop, if_neg h]
  simp only [BranchCheckerV2.checkBranchChange]
  exact loopReleases script 0

theorem strStartsWith_iff (s p : String) : strStartsWith s p = true ↔ ∃ t, s.data = p.data ++ t := by
  unfold strStartsWith
  rw [ List.isPrefixOf_iff_prefix]
  constructor
  · rintro ⟨t, ht⟩
    exact ⟨t, ht.symm⟩
  · rintro ⟨t, ht⟩
    exact ⟨t, ht.symm⟩

theorem strEndsWith_iff (s p : String) : strEndsWith s p = true ↔ ∃ t, s.data = t ++ p.data := by
  unfold strEndsWith
  rw [ List.isSuffixOf_iff_suffix]
  constructor
  · rintro ⟨t, ht⟩
    exact ⟨t, ht.symm⟩
  · rintro ⟨t, ht⟩
    exact ⟨t, ht.symm⟩

theorem pathNormalize_absolute (p : String) (habs : strStartsWith p "/" = true) :
    ∃ t, (pathNormalize p).data = '/' :: t := by
  have hp : p ≠ "" := by
    intro h
    subst h
    exact absurd habs (by decide)
  unfold pathNormalize
  rw [if_neg hp]
  simp only [habs, if_true]
  split
  · exact ⟨[], by decide⟩
  · exact ⟨_, rfl⟩

/-- Claim C10: for an (absolute) repository root, `isFileInRepo` with the
empty string as the file path returns `false`: an empty path is never
classified as belonging to any repository. -/
theorem C10_empty_path_not_in_repo (repoRoot : String)
    (habs : strStartsWith repoRoot "/" = true) :
    isFileInRepo "" repoRoot = false := by
  obtain ⟨t, ht⟩ := pathNormalize_absolute repoRoot habs
  have hdot : (pathNormalize "").data = ['.'] := by decide
  have hne : pathNormalize "" ≠ pathNormalize repoRoot := by
    intro h
    have hdata := congrArg String.data h
    rw [hdot, ht] at hdata
    injection hdata with h1 _
    exact absurd h1 (by decide)
  have hpre : ∀ (u : List Char) (rs : String), rs.data = '/' :: u →
      strStartsWith (pathNormalize "") rs = false := by
    intro u rs hrs
    by_contra hcon
    rw [Bool.not_eq_false] at hcon
    obtain ⟨w, hw⟩ := (strStartsWith_iff _ _).1 hcon
    rw [hdot, hrs, List.cons_append] at hw
    injection hw with h1 _
    exact absurd h1 (by decide)
  simp only [isFileInRepo]
  rw [Bool.or_eq_false_iff]
  constructor
  · by_cases hends : strEndsWith (pathNormalize repoRoot) "/" = true
    · rw [if_pos hends]
      exact hpre t _ ht
    · rw [if_neg hends]
      apply hpre (t ++ ['/'])
      rw [String.data_append, ht]
      rfl
  · exact beq_eq_false_iff_ne.2 hne

/-- Claim C10 witness: a concrete absolute repository root. -/
theorem C10_empty_path_not_in_repo_witness :
    isFileInRepo "" "/home/user/project" = false :=
  C10_empty_path_not_in_repo "/home/user/project" (by decide)

theorem repoRootWithSep_data (nr : String) :
    (if strEndsWith nr "/" then nr else nr ++ "/").data = rootDirData nr ++ ['/'] := by
  have hs : ("/" : String).data = ['/'] := by decide
  by_cases h : strEndsWith nr "/" = true
  · rw [if_pos h]
    obtain ⟨t, ht⟩ := (strEndsWith_iff nr "/").1 h
    rw [hs] at ht
    unfold rootDirData
    rw [ht]
    simp only [List.getLast?_concat, if_pos rfl, List.dropLast_concat, if_true]
  · rw [if_neg h]
    have hlast : nr.data.getLast? ≠ some '/' := by
      intro hg
      apply h
      rw [strEndsWith_iff]
      have hne : nr.data ≠ [] := by
        intro he
        rw [he] at hg
        exact absurd hg (by decide)
      refine ⟨nr.data.dropLast, ?_⟩
      rw [hs]
      rw [List.getLast?_eq_getLast _ hne] at hg
      injection hg with hgl
      rw [← hgl]
      exact (List.dropLast_concat_getLast hne).symm
    unfold rootDirData
    rw [if_neg hlast, String.data_append, hs]

/-- Claim C7: `isFileInRepo` returns `true` exactly when the normalized
file path equals the normalized repo root or extends the repo root's
directory name past one separator; normalization-equivalent arguments
(collapsed `//`, resolved `..`) give identical results; and the named
boundary instances hold. -/
theorem C7_membership_boundary :
    (∀ filePath repoRoot : String,
        isFileInRepo filePath repoRoot = true ↔
          (pathNormalize filePath = pathNormalize repoRoot ∨
            ∃ rest, (pathNormalize filePath).data =
              rootDirData (pathNormalize repoRoot) ++ '/' :: rest)) ∧
    (∀ f f' r r' : String, pathNormalize f = pathNormalize f' →
        pathNormalize r = pathNormalize r' → isFileInRepo f r = isFileInRepo f' r') ∧
    isFileInRepo "/repo-other/x" "/repo" = false ∧
    isFileInRepo "/repo/x" "/repo" = true ∧
    isFileInRepo "/repo" "/repo" = true ∧
    isFileInRepo "/repo//x" "/repo" = isFileInRepo "/repo/x" "/repo" ∧
    isFileInRepo "/repo/a/../x" "/repo" = isFileInRepo "/repo/x" "/repo" ∧
    isFileInRepo "/repo/x" "/x/../repo" = isFileInRepo "/repo/x" "/repo" := by
  refine ⟨?_, ?_, by decide, by decide, by decide, by decide, by decide, by decide⟩
  · intro filePath repoRoot
    simp only [isFileInRepo]
    rw [Bool.or_eq_true, strStartsWith_iff, beq_iff_eq, repoRootWithSep_data, or_comm]
    simp only [List.append_assoc, List.singleton_append]
  · intro f f' r r' h1 h2
    simp only [isFileInRepo, h1, h2]

/-- Claim C7 witness: collapsing a duplicated separator in the file path
does not change membership. -/
theorem C7_membership_boundary_witness :
    isFileInRepo "/home/user//project/src/index.ts" "/home/user/project" =
      isFileInRepo "/home/user/project/src/index.ts" "/home/user/project" :=
  C7_membership_boundary.2.1 "/home/user//project/src/index.ts"
    "/home/user/project/src/index.ts" "/home/user/project" "/home/user/project"
    (by decide) (by decide)

theorem dedupFirst_nil : dedupFirst [] = [] := by
  rw [dedupFirst]

theorem dedupFirst_cons (p : String) (l : List String) :
    dedupFirst (p :: l) = p :: dedupFirst (l.filter (fun q => !(q == p))) := by
  rw [dedupFirst]

theorem openFilesInGroup_append (repoRoot : String) (l1 l2 : List TabInput) :
    ∀ st, openFilesInGroup repoRoot (l1 ++ l2) st =
      openFilesInGroup repoRoot l2 (openFilesInGroup repoRoot l1 st) := by
  induction l1 with
  | nil => intro st; rfl
  | cons tab rest ih =>
    intro st
    obtain ⟨seen, acc⟩ := st
    cases tab with
    | other =>
      simp only [List.cons_append, openFilesInGroup]
      exact ih _
    | text fsPath =>
      simp only [List.cons_append, openFilesInGroup]
      by_cases h : (isFileInRepo fsPath repoRoot && !(seen.contains fsPath)) = true
      · rw [if_pos h, if_pos h]
        exact ih _
      · rw [if_neg h, if_neg h]
        exact ih _

theorem openFilesInGroups_eq_flatten (repoRoot : String) (groups : List (List TabInput)) :
    ∀ st, openFilesInGroups repoRoot groups st =
      openFilesInGroup repoRoot groups.flatten st := by
  induction groups with
  | nil => intro st; rfl
  | cons g gs ih =>
    intro st
    simp only [openFilesInGroups, List.flatten_cons, openFilesInGroup_append]
    exact ih _

theorem openFilesInGroup_dedup (repoRoot : String) (tabs : List TabInput) :
    ∀ (seen acc : List String),
      (openFilesInGroup repoRoot tabs (seen, acc)).2 =
        acc ++ dedupFirst
          (((tabs.filterMap textPath).filter (fun p => isFileInRepo p repoRoot)).filter
            (fun p => !(seen.contains p))) := by
  induction tabs with
  | nil =>
    intro seen acc
    simp [openFilesInGroup, dedupFirst_nil]
  | cons tab rest ih =>
    intro seen acc
    cases tab with
    | other =>
      simp only [openFilesInGroup, List.filterMap_cons, textPath]
      exact ih seen acc
    | text fsPath =>
      by_cases hrepo : isFileInRepo fsPath repoRoot = true
      · by_cases hseen : seen.contains fsPath = true
        · have hcond : (isFileInRepo fsPath repoRoot && !(seen.contains fsPath)) = false := by
            rw [hrepo, hseen]
            rfl
          simp only [openFilesInGroup]
          rw [if_neg (by rw [hcond]; exact Bool.false_ne_true)]
          rw [ih seen acc]
          simp only [List.filterMap_cons, textPath, List.filter_cons, hrepo, if_true, hseen,
            Bool.not_true, Bool.false_eq_true, if_false, eq_self_iff_true]
        · have hfalse : seen.contains fsPath = false := Bool.eq_false_iff.mpr hseen
          have hcond : (isFileInRepo fsPath repoRoot && !(seen.contains fsPath)) = true := by
            rw [hrepo, hfalse]
            rfl
          simp only [openFilesInGroup]
          rw [if_pos hcond]
          rw [ih (fsPath :: seen) (acc ++ [fsPath])]
          simp only [List.filterMap_cons, textPath, List.filter_cons, hrepo, if_true, hfalse,
            Bool.not_false, dedupFirst_cons, eq_self_iff_true, List.filter_filter,
            List.append_assoc, List.singleton_append]
          congr 3
          apply List.filter_congr
          intro q _
          simp only [List.contains_cons, Bool.not_or, Bool.and_assoc]
      · have hrf : isFileInRepo fsPath repoRoot = false := Bool.eq_false_iff.mpr hrepo
        have hcond : (isFileInRepo fsPath repoRoot && !(seen.contains fsPath)) = false := by
          rw [hrf]
          rfl
        simp only [openFilesInGroup]
        rw [if_neg (by rw [hcond]; exact Bool.false_ne_true)]
        rw [ih seen acc]
        simp only [List.filterMap_cons, textPath, List.filter_cons, hrf,
          Bool.false_eq_true, if_false]

/-- Claim C8: `getOpenFilesForRepo` returns exactly the paths of
text-document tabs under the root, in display order of first occurrence
(groups in order, tabs within each group in order), each path at most
once with the first occurrence winning. -/
theorem C8_open_files_order_first_occurrence (repoRoot : String)
    (groups : List (List TabInput)) :
    getOpenFilesForRepo repoRoot groups =
      dedupFirst ((groups.flatten.filterMap textPath).filter
        (fun p => isFileInRepo p repoRoot)) := by
  unfold getOpenFilesForRepo
  rw [openFilesInGroups_eq_flatten, openFilesInGroup_dedup]
  rw [List.nil_append]
  congr 1
  apply List.filter_eq_self.mpr
  intro a _
  rfl
